import Mathlib

/-!
# Verification of the EDDataExpress crawl frontier and resource classifier

Shallow embedding of `src/scraper/site_crawler.py` (class `EDDataExpressCrawler`)
and `src/scraper/media_downloader.py` (method `MediaDownloader.get_media_type`).

URLs are modelled as `String`.  The external collaborators (the selenium page
renderer, `requests.get`, and the BeautifulSoup link parser) are parameters of
the embedding, bundled in the `Crawler` structure; the crawl loop itself,
`url_to_filename`, `extract_links`, `download_file` and `get_media_type` are
translated from the Python source.

String primitives (`split`, `startswith`, `endswith`, `replace`, `in`,
`lower`) are implemented structurally over `List Char` so that every
definition evaluates inside the kernel.
-/

set_option autoImplicit false

namespace EDData

/-! ## String primitives (models of the Python `str` operations used) -/

/-- Predicate `startsWithL s p`: the character list `s` begins with `p`
(Python `s.startswith(p)`). -/
def startsWithL : List Char → List Char → Bool
  | _, [] => true
  | [], _ :: _ => false
  | c :: s, p :: ps => c == p && startsWithL s ps

/-- Predicate `endsWithL s p`: the character list `s` ends with `p`
(Python `s.endswith(p)`). -/
def endsWithL (s p : List Char) : Bool :=
  startsWithL s.reverse p.reverse

/-- Break a character list at the FIRST occurrence of `"://"`:
`some (before, after)`, or `none` when no `"://"` occurs. -/
def breakScheme : List Char → Option (List Char × List Char)
  | [] => none
  | c :: rest =>
    if c == ':' && startsWithL rest ['/', '/'] then
      some ([], rest.drop 2)
    else
      match breakScheme rest with
      | none => none
      | some (pre, post) => some (c :: pre, post)

/-- Python `s.endswith(suffix)` on strings. -/
def pyEndsWith (s suffix : String) : Bool :=
  endsWithL s.data suffix.data

/-! ## urllib.parse model

The crawler uses `urlparse(url).netloc`, `urlparse(url).path` and
`urljoin(base, href)` from the Python standard library.  We model `urlparse`
for the URL shapes the crawler manipulates (absolute `scheme://...` URLs, plus
a scheme-less fallback): the netloc is the text between `://` and the first of
`/`, `?`, `#`; the path is the text from there up to the first of `?`, `#`
(Python splits the fragment first, then the query, which yields the same path).
-/

/-- Split an absolute URL at its first `://`: `some (scheme, rest)`, or `none`
when the URL has no `://`. -/
def schemeSplit (url : String) : Option (String × String) :=
  match breakScheme url.data with
  | none => none
  | some (pre, post) => some (String.mk pre, String.mk post)

/-- Model of `urlparse(url).netloc` for the URL shapes the crawler uses. -/
def urlnetloc (url : String) : String :=
  match schemeSplit url with
  | some (_, rest) => String.mk (rest.data.takeWhile (fun c => !(c == '/' || c == '?' || c == '#')))
  | none => ""

/-- Model of `urlparse(url).path` for the URL shapes the crawler uses: the
path stops at the first `?` (query) or `#` (fragment). -/
def urlpath (url : String) : String :=
  let rest : String :=
    match schemeSplit url with
    | some (_, r) => String.mk (r.data.dropWhile (fun c => !(c == '/' || c == '?' || c == '#')))
    | none => url
  String.mk ((rest.data.takeWhile (fun c => c != '#')).takeWhile (fun c => c != '?'))

/-- Model of `urllib.parse.urljoin(base, url)` for the reference shapes the
development exercises: an absolute `url` (one containing `://`) is returned
unchanged; a pure fragment `#...` replaces the fragment of `base`; a
root-relative `/...` keeps scheme and netloc of `base`; other relative
references replace the last path segment of `base` (dot segments are not
normalised — no theorem below exercises them). -/
def urljoin (base url : String) : String :=
  if url == "" then base
  else if (schemeSplit url).isSome then url
  else if startsWithL url.data ['#'] then
    String.mk (base.data.takeWhile (fun c => c != '#')) ++ url
  else if startsWithL url.data ['/'] then
    match schemeSplit base with
    | some (scheme, _) => scheme ++ "://" ++ urlnetloc base ++ url
    | none => url
  else
    match schemeSplit base with
    | some (scheme, _) =>
      let p := urlpath base
      let dir := String.mk (p.data.reverse.dropWhile (fun c => c != '/')).reverse
      let dir2 := if dir == "" then "/" else dir
      scheme ++ "://" ++ urlnetloc base ++ dir2 ++ url
    | none => url

/-! ## `EDDataExpressCrawler.url_to_filename` (site_crawler.py, lines 134-150) -/

/-- Python `path.strip("/")`: remove leading and trailing `/` characters. -/
def stripSlashes (s : String) : String :=
  String.mk (((s.data.dropWhile (fun c => c == '/')).reverse.dropWhile (fun c => c == '/')).reverse)

/-- Method `EDDataExpressCrawler.url_to_filename`: convert a URL to a filename.
Takes `urlparse(url).path`; root (`""` or `"/"`) maps to `index.html`;
otherwise strips leading/trailing slashes, replaces the remaining `/` with
`_` (Python `path.replace("/", "_")`), and appends `.html` when the result
contains no `.` (Python `"." not in path`). -/
def url_to_filename (url : String) : String :=
  let path := urlpath url
  if path == "" || path == "/" then "index.html"
  else
    let path2 := String.mk ((stripSlashes path).data.map (fun c => if c == '/' then '_' else c))
    if !(path2.data.elem '.') then path2 ++ ".html" else path2

/-! ## `MediaDownloader.get_media_type` (media_downloader.py, lines 50-87) -/

/-- The fixed list of office/PDF MIME types recognised by
`MediaDownloader.get_media_type`. -/
def documentMimeTypes : List String :=
  [ "application/pdf",
    "application/msword",
    "application/vnd.openxmlformats-officedocument.wordprocessingml.document",
    "application/vnd.ms-excel",
    "application/vnd.openxmlformats-officedocument.spreadsheetml.sheet",
    "application/vnd.ms-powerpoint",
    "application/vnd.openxmlformats-officedocument.presentationml.presentation" ]

/-- Method `MediaDownloader.get_media_type`: determine the media category from the
declared content type when one is given (Python `if content_type:` is false
for `None` and for the empty string), falling back to the lower-cased URL
path's extension. -/
def get_media_type (url : String) (content_type : Option String) : String :=
  let fallback :=
    let path := String.mk ((urlpath url).data.map Char.toLower)
    if [".jpg", ".jpeg", ".png", ".gif", ".svg", ".webp", ".ico"].any (fun e => pyEndsWith path e) then
      "images"
    else if [".mp4", ".webm", ".ogg", ".mov", ".avi"].any (fun e => pyEndsWith path e) then
      "videos"
    else if [".pdf", ".doc", ".docx", ".xls", ".xlsx", ".ppt", ".pptx"].any (fun e => pyEndsWith path e) then
      "documents"
    else "other"
  match content_type with
  | none => fallback
  | some ct =>
    if ct = "" then fallback
    else if startsWithL ct.data "image/".data then "images"
    else if startsWithL ct.data "video/".data then "videos"
    else if ct ∈ documentMimeTypes then "documents"
    else fallback

/-! ## The crawl frontier (`EDDataExpressCrawler`, site_crawler.py lines 32-281)

External collaborators are parameters:

* `render` models the selenium branch of `download_file` (`driver.get(url)`
  followed by `driver.page_source`); an `error` value is a raised exception,
  carrying its message.
* `requests_get` models `requests.get(url, timeout=30)` followed by
  `raise_for_status()`; `error` covers network errors, timeouts and non-2xx
  statuses.
* `anchors`, `scripts`, `stylesheets` model the three BeautifulSoup queries of
  `extract_links` (`find_all("a", href=True)`, `find_all("script", src=True)`,
  `find_all("link", rel="stylesheet", href=True)`), returning the attribute
  values in document order.

The filesystem is modelled as always-writable: `download_file` writes the
fetched text and `crawl` reads the identical text back for link extraction. -/

structure Crawler where
  domain : String
  output_dir : String
  render : String → Except String String
  requests_get : String → Except String String
  anchors : String → List String
  scripts : String → List String
  stylesheets : String → List String

/-- The mutable crawler state plus the observable trace of the run:
`url_queue`, `visited_urls` and `page_count` are the object fields of
`EDDataExpressCrawler` (the visited set is kept as a duplicate-free list);
`fetchCalls` records each invocation of a fetch collaborator inside
`download_file`, as `(url, file_type)`; `savedFiles` records each file write,
as `(filepath, content)`; `errors` records each `logger.error` emitted by the
`except` branch of `download_file`, as `(url, reason)`. -/
structure CrawlState where
  url_queue : List String
  visited_urls : List String
  page_count : Nat
  fetchCalls : List (String × String)
  savedFiles : List (String × String)
  errors : List (String × String)
deriving DecidableEq, Repr

/-- State of a fresh `EDDataExpressCrawler(base_url, ...)`:
`visited_urls = set()`, `url_queue = [base_url]` (site_crawler.py lines 45-46),
and an empty observation trace. -/
def initState (base_url : String) : CrawlState :=
  { url_queue := [base_url], visited_urls := [], page_count := 0,
    fetchCalls := [], savedFiles := [], errors := [] }

/-- The `file_type` selection of `crawl` (site_crawler.py lines 256-260):
default `"html"`, `"js"` when the URL string ends with `.js`, `"css"` when it
ends with `.css`. -/
def file_type_of (url : String) : String :=
  if pyEndsWith url ".js" then "js"
  else if pyEndsWith url ".css" then "css"
  else "html"

/-- Method `EDDataExpressCrawler.download_file` (lines 152-189): fetch via selenium
for `file_type == "html"`, else via `requests.get`; on success save the
content under `output_dir/file_type/url_to_filename(url)` and return the
filepath.  A raised exception is logged and `None` is returned; here the
exception message is propagated in `Except.error` and the caller records it. -/
def download_file (C : Crawler) (url file_type : String) : Except String (String × String) :=
  let fetched := if file_type == "html" then C.render url else C.requests_get url
  match fetched with
  | .error e => .error e
  | .ok content => .ok (C.output_dir ++ "/" ++ file_type ++ "/" ++ url_to_filename url, content)

/-- Method `EDDataExpressCrawler.extract_links` (lines 191-232): resolve every
anchor `href`, script `src` and stylesheet `href` against the page URL with
`urljoin` and keep only those whose netloc equals `self.domain`; anchors are
tagged `"html"`, scripts `"js"`, stylesheets `"css"`, in that pass order. -/
def extract_links (C : Crawler) (url : String) (html_content : String) : List (String × String) :=
  ((C.anchors html_content).map (fun href => (urljoin url href, "html"))).filter
      (fun p => urlnetloc p.1 == C.domain)
    ++ ((C.scripts html_content).map (fun src => (urljoin url src, "js"))).filter
      (fun p => urlnetloc p.1 == C.domain)
    ++ ((C.stylesheets html_content).map (fun href => (urljoin url href, "css"))).filter
      (fun p => urlnetloc p.1 == C.domain)

/-- One loop body of `crawl` for a dequeued URL that is NOT yet visited
(site_crawler.py lines 252-276), applied to the state with the URL already
popped: add it to `visited_urls`, pick the file type from the URL suffix,
call `download_file`; on failure record the error; on success record the
saved file and, for `"html"`, append every extracted link not in the updated
visited set to the queue (the code checks `link["url"] not in
self.visited_urls` after `current_url` was added); finally `page_count += 1`. -/
def process_url (C : Crawler) (current_url : String) (s : CrawlState) : CrawlState :=
  let file_type := file_type_of current_url
  match download_file C current_url file_type with
  | .error reason =>
      { s with visited_urls := s.visited_urls ++ [current_url],
               fetchCalls := s.fetchCalls ++ [(current_url, file_type)],
               errors := s.errors ++ [(current_url, reason)],
               page_count := s.page_count + 1 }
  | .ok (filepath, content) =>
      if file_type == "html" then
        { s with visited_urls := s.visited_urls ++ [current_url],
                 fetchCalls := s.fetchCalls ++ [(current_url, file_type)],
                 savedFiles := s.savedFiles ++ [(filepath, content)],
                 url_queue := s.url_queue ++
                   ((extract_links C current_url content).filter
                     (fun l => decide (l.1 ∉ s.visited_urls ++ [current_url]))).map Prod.fst,
                 page_count := s.page_count + 1 }
      else
        { s with visited_urls := s.visited_urls ++ [current_url],
                 fetchCalls := s.fetchCalls ++ [(current_url, file_type)],
                 savedFiles := s.savedFiles ++ [(filepath, content)],
                 page_count := s.page_count + 1 }

/-- The `while` guard `max_pages is None or page_count < max_pages`
(site_crawler.py line 244). -/
def budget_ok (max_pages : Option Nat) (page_count : Nat) : Bool :=
  match max_pages with
  | none => true
  | some n => page_count < n

/-- Method `EDDataExpressCrawler.crawl(max_pages)` (lines 234-281): while the queue
is non-empty and the budget allows, pop the front URL; if already visited,
discard it and continue (without touching `page_count`); otherwise run
`process_url`.  The extra `fuel` argument bounds the number of iterations —
the Python `while` loop has no such bound, so every theorem below holds for
every fuel value. -/
def crawl (C : Crawler) (max_pages : Option Nat) : Nat → CrawlState → CrawlState
  | 0, s => s
  | fuel + 1, s =>
    match s.url_queue with
    | [] => s
    | current_url :: rest =>
      if budget_ok max_pages s.page_count then
        if current_url ∈ s.visited_urls then
          crawl C max_pages fuel { s with url_queue := rest }
        else
          crawl C max_pages fuel (process_url C current_url { s with url_queue := rest })
      else s

/-- The URLs passed to a fetch collaborator during the run, in call order. -/
def fetchedUrls (s : CrawlState) : List String :=
  s.fetchCalls.map Prod.fst

/-- A parser collaborator given by an association table from page text to
attribute list (pages absent from the table have no matching tags). -/
def assocLookup (table : List (String × List String)) : String → List String :=
  fun html => ((table.lookup html).getD [])

/-- A renderer that returns a distinctive page text per URL, never failing. -/
def okRender : String → Except String String :=
  fun url => .ok ("PAGE " ++ url)

/-- Scenario for the FIFO property: seed `http://x/a` links to `http://x/b`
then `http://x/c` in document order, and `http://x/b` links to `http://x/d`. -/
def fifoCrawler : Crawler :=
  { domain := "x", output_dir := "out",
    render := okRender,
    requests_get := fun _ => .ok "raw",
    anchors := assocLookup
      [ ("PAGE http://x/a", ["http://x/b", "http://x/c"]),
        ("PAGE http://x/b", ["http://x/d"]) ],
    scripts := fun _ => [],
    stylesheets := fun _ => [] }

/-- Scenario for budget termination: seed `http://x/a` links to four further
pages, five reachable pages in total. -/
def starCrawler : Crawler :=
  { domain := "x", output_dir := "out",
    render := okRender,
    requests_get := fun _ => .ok "raw",
    anchors := assocLookup
      [ ("PAGE http://x/a", ["http://x/b", "http://x/c", "http://x/d", "http://x/e"]) ],
    scripts := fun _ => [],
    stylesheets := fun _ => [] }

/-- Scenario for error isolation: seed `http://x/a` links to `http://x/b`
then `http://x/c`, `http://x/c` links to `http://x/d`, and rendering
`http://x/b` raises an exception with message `boom`. -/
def failBCrawler : Crawler :=
  { domain := "x", output_dir := "out",
    render := fun url => if url == "http://x/b" then .error "boom" else .ok ("PAGE " ++ url),
    requests_get := fun _ => .ok "raw",
    anchors := assocLookup
      [ ("PAGE http://x/a", ["http://x/b", "http://x/c"]),
        ("PAGE http://x/c", ["http://x/d"]) ],
    scripts := fun _ => [],
    stylesheets := fun _ => [] }

/-- Scenario for queue dedup: the seed page links to `http://x/b` twice. -/
def dupLinkCrawler : Crawler :=
  { domain := "x", output_dir := "out",
    render := okRender,
    requests_get := fun _ => .ok "raw",
    anchors := assocLookup [("PAGE http://x/a", ["http://x/b", "http://x/b"])],
    scripts := fun _ => [],
    stylesheets := fun _ => [] }

/-- Scenario for fragment handling: the seed page `http://x/a` links to
`http://x/a#sec`, the same address up to its fragment. -/
def fragmentCrawler : Crawler :=
  { domain := "x", output_dir := "out",
    render := okRender,
    requests_get := fun _ => .ok "raw",
    anchors := assocLookup [("PAGE http://x/a", ["http://x/a#sec"])],
    scripts := fun _ => [],
    stylesheets := fun _ => [] }

/-- Scenario for exact-string dedup: the seed page links to itself. -/
def selfLinkCrawler : Crawler :=
  { domain := "x", output_dir := "out",
    render := okRender,
    requests_get := fun _ => .ok "raw",
    anchors := assocLookup [("PAGE http://x/a", ["http://x/a"])],
    scripts := fun _ => [],
    stylesheets := fun _ => [] }

/-- Modelled from the spec: the spec's normalized form of a URL
(scheme+host+path+query after relative resolution, fragment stripped) — this
definition follows the spec's words, for comparison with the code's
exact-string frontier identity. -/
def spec_normalized_form (url : String) : String :=
  String.mk (url.data.takeWhile (fun c => c != '#'))

/-- The dedup invariant: the visited list holds no URL twice, no URL is
passed to a fetch collaborator twice, and every fetched URL is recorded in
the visited list. -/
def DedupInv (s : CrawlState) : Prop :=
  s.visited_urls.Nodup ∧ (fetchedUrls s).Nodup ∧
    ∀ u ∈ fetchedUrls s, u ∈ s.visited_urls

/-- The scope invariant: every queued URL and every fetched URL has the
crawler's domain as its netloc. -/
def ScopeInv (C : Crawler) (s : CrawlState) : Prop :=
  (∀ v ∈ s.url_queue, urlnetloc v = C.domain) ∧
    ∀ v ∈ fetchedUrls s, urlnetloc v = C.domain

/-- The dispatch invariant: each recorded fetch call used the file type
derived from the URL's suffix. -/
def FtInv (s : CrawlState) : Prop :=
  ∀ p ∈ s.fetchCalls, p.2 = file_type_of p.1

/-! ## Field equations for `process_url` -/

theorem process_url_visited_urls (C : Crawler) (u : String) (s : CrawlState) :
    (process_url C u s).visited_urls = s.visited_urls ++ [u] := by
  unfold process_url
  cases hdl : download_file C u (file_type_of u) with
  | error e => simp [hdl]
  | ok pr =>
    obtain ⟨fp, c⟩ := pr
    by_cases h : (file_type_of u == "html") = true <;> simp [hdl, h]

theorem process_url_fetchCalls (C : Crawler) (u : String) (s : CrawlState) :
    (process_url C u s).fetchCalls = s.fetchCalls ++ [(u, file_type_of u)] := by
  unfold process_url
  cases hdl : download_file C u (file_type_of u) with
  | error e => simp [hdl]
  | ok pr =>
    obtain ⟨fp, c⟩ := pr
    by_cases h : (file_type_of u == "html") = true <;> simp [hdl, h]

theorem process_url_page_count (C : Crawler) (u : String) (s : CrawlState) :
    (process_url C u s).page_count = s.page_count + 1 := by
  unfold process_url
  cases hdl : download_file C u (file_type_of u) with
  | error e => simp [hdl]
  | ok pr =>
    obtain ⟨fp, c⟩ := pr
    by_cases h : (file_type_of u == "html") = true <;> simp [hdl, h]

/-- Every candidate returned by `extract_links` has the crawler's domain as
its netloc: the three extraction passes all filter on
`urlparse(absolute_url).netloc == self.domain`. -/
theorem extract_links_netloc (C : Crawler) (url html : String) :
    ∀ p ∈ extract_links C url html, urlnetloc p.1 = C.domain := by
  intro p hp
  simp only [extract_links, List.mem_append, List.mem_filter, beq_iff_eq] at hp
  rcases hp with (⟨_, h⟩ | ⟨_, h⟩) | ⟨_, h⟩ <;> exact h

/-- Every URL in the queue after `process_url` was already queued, or is a
freshly discovered link: in-scope, not visited before the step, and distinct
from the URL just processed. -/
theorem process_url_queue_mem (C : Crawler) (u : String) (s : CrawlState) :
    ∀ v ∈ (process_url C u s).url_queue,
      v ∈ s.url_queue ∨ (urlnetloc v = C.domain ∧ v ∉ s.visited_urls ∧ v ≠ u) := by
  intro v hv
  unfold process_url at hv
  cases hdl : download_file C u (file_type_of u) with
  | error e => simp [hdl] at hv; exact Or.inl hv
  | ok pr =>
    obtain ⟨fp, c⟩ := pr
    by_cases h : (file_type_of u == "html") = true
    · simp only [hdl, h, if_true] at hv
      simp only [List.mem_append, List.mem_map, List.mem_filter] at hv
      rcases hv with hv | ⟨l, ⟨hl, hnv⟩, rfl⟩
      · exact Or.inl hv
      · have hd := of_decide_eq_true hnv
        push_neg at hd
        refine Or.inr ⟨extract_links_netloc C u c l hl, hd.1, ?_⟩
        simpa using hd.2
    · simp [hdl, h] at hv
      exact Or.inl hv

/-! ## Invariant preservation along the crawl loop -/

/-- Any property preserved by the duplicate-discard step and by `process_url`
on an unvisited dequeued URL holds at every state the crawl loop reaches. -/
theorem crawl_preserves (C : Crawler) (mp : Option Nat) (P : CrawlState → Prop)
    (hskip : ∀ s u rest, s.url_queue = u :: rest → u ∈ s.visited_urls →
      P s → P { s with url_queue := rest })
    (hproc : ∀ s u rest, s.url_queue = u :: rest → u ∉ s.visited_urls →
      budget_ok mp s.page_count = true →
      P s → P (process_url C u { s with url_queue := rest })) :
    ∀ fuel s, P s → P (crawl C mp fuel s) := by
  intro fuel
  induction fuel with
  | zero => intro s h; exact h
  | succ n ih =>
    intro s h
    rcases hq : s.url_queue with _ | ⟨u, rest⟩
    · simpa [crawl, hq] using h
    · by_cases hb : budget_ok mp s.page_count = true
      · by_cases hv : u ∈ s.visited_urls
        · have hstep := hskip s u rest hq hv h
          simpa [crawl, hq, hb, hv] using ih _ hstep
        · have hstep := hproc s u rest hq hv hb h
          simpa [crawl, hq, hb, hv] using ih _ hstep
      · simpa [crawl, hq, hb] using h

/-- The dedup invariant holds at every state the crawl loop reaches. -/
theorem dedupInv_crawl (C : Crawler) (mp : Option Nat) (fuel : Nat) (s : CrawlState)
    (h : DedupInv s) : DedupInv (crawl C mp fuel s) := by
  refine crawl_preserves C mp DedupInv ?_ ?_ fuel s h
  · intro s u rest hq hv hP
    exact hP
  · intro s u rest hq hv hb hP
    obtain ⟨h1, h2, h3⟩ := hP
    refine ⟨?_, ?_, ?_⟩
    · rw [process_url_visited_urls]
      simp only [List.nodup_append, List.nodup_cons, List.nodup_nil]
      exact ⟨h1, by simp, by simpa using hv⟩
    · have hfu : u ∉ fetchedUrls { s with url_queue := rest } :=
        fun hmem => hv (h3 u hmem)
      simp only [fetchedUrls, process_url_fetchCalls, List.map_append]
      simp only [List.nodup_append, List.nodup_cons, List.nodup_nil]
      exact ⟨h2, by simp, by simpa [fetchedUrls] using hfu⟩
    · intro v hvmem
      rw [process_url_visited_urls]
      simp only [fetchedUrls, process_url_fetchCalls, List.map_append] at hvmem
      rcases List.mem_append.1 hvmem with hvm | hvm
      · exact List.mem_append.2 (Or.inl (h3 v hvm))
      · simp only [List.map_cons, List.map_nil, List.mem_singleton] at hvm
        simp [hvm]

/-- The scope invariant holds at every state the crawl loop reaches. -/
theorem scopeInv_crawl (C : Crawler) (mp : Option Nat) (fuel : Nat) (s : CrawlState)
    (h : ScopeInv C s) : ScopeInv C (crawl C mp fuel s) := by
  refine crawl_preserves C mp (ScopeInv C) ?_ ?_ fuel s h
  · rintro s u rest hq hv ⟨hQ, hF⟩
    refine ⟨fun v hvm => hQ v ?_, hF⟩
    rw [hq]
    exact List.mem_cons_of_mem _ hvm
  · rintro s u rest hq hv hb ⟨hQ, hF⟩
    have hu : urlnetloc u = C.domain := hQ u (by rw [hq]; exact List.mem_cons_self _ _)
    constructor
    · intro v hvm
      rcases process_url_queue_mem C u { s with url_queue := rest } v hvm with hmem | ⟨hnet, -, -⟩
      · exact hQ v (by rw [hq]; exact List.mem_cons_of_mem _ hmem)
      · exact hnet
    · intro v hvm
      simp only [fetchedUrls, process_url_fetchCalls, List.map_append] at hvm
      rcases List.mem_append.1 hvm with hvm | hvm
      · exact hF v hvm
      · simp only [List.map_cons, List.map_nil, List.mem_singleton] at hvm
        rw [hvm]
        exact hu

/-- The dispatch invariant holds at every state the crawl loop reaches. -/
theorem ftInv_crawl (C : Crawler) (mp : Option Nat) (fuel : Nat) (s : CrawlState)
    (h : FtInv s) : FtInv (crawl C mp fuel s) := by
  refine crawl_preserves C mp FtInv ?_ ?_ fuel s h
  · intro s u rest hq hv hP
    exact hP
  · intro s u rest hq hv hb hP
    intro p hp
    rw [process_url_fetchCalls] at hp
    rcases List.mem_append.1 hp with hm | hm
    · exact hP p hm
    · simp only [List.mem_singleton] at hm
      rw [hm]

/-- Under a budget `n`, the processed count never exceeds `n`. -/
theorem crawl_page_count_le (C : Crawler) (n fuel : Nat) (s : CrawlState)
    (h : s.page_count ≤ n) : (crawl C (some n) fuel s).page_count ≤ n := by
  refine crawl_preserves C (some n) (fun t => t.page_count ≤ n) ?_ ?_ fuel s h
  · intro s u rest hq hv hP
    exact hP
  · intro s u rest hq hv hb hP
    rw [process_url_page_count]
    exact Nat.succ_le_of_lt (by simpa [budget_ok] using hb)

/-- A crawl from a state with an empty queue does nothing. -/
theorem crawl_nil (C : Crawler) (mp : Option Nat) (fuel : Nat) (s : CrawlState)
    (h : s.url_queue = []) : crawl C mp fuel s = s := by
  cases fuel with
  | zero => rfl
  | succ n => simp [crawl, h]

/-- A crawl from a state whose page count exhausts the budget does nothing. -/
theorem crawl_budget_stop (C : Crawler) (mp : Option Nat) (fuel : Nat) (s : CrawlState)
    (h : budget_ok mp s.page_count = false) : crawl C mp fuel s = s := by
  cases fuel with
  | zero => rfl
  | succ n =>
    rcases hq : s.url_queue with _ | ⟨u, rest⟩ <;> simp [crawl, hq, h]

/-- Fuel composes: running `a + b` iterations is running `a` then `b`. -/
theorem crawl_add (C : Crawler) (mp : Option Nat) (a b : Nat) (s : CrawlState) :
    crawl C mp (a + b) s = crawl C mp b (crawl C mp a s) := by
  induction a generalizing s with
  | zero => rw [Nat.zero_add]; rfl
  | succ n ih =>
    rcases hq : s.url_queue with _ | ⟨u, rest⟩
    · rw [crawl_nil C mp _ s hq, crawl_nil C mp _ s hq, crawl_nil C mp _ s hq]
    · by_cases hb : budget_ok mp s.page_count = true
      · by_cases hv : u ∈ s.visited_urls
        · have h1 : crawl C mp (n + 1 + b) s = crawl C mp (n + b) { s with url_queue := rest } := by
            have harith : n + 1 + b = (n + b) + 1 := by omega
            rw [harith]
            simp [crawl, hq, hb, hv]
          have h2 : crawl C mp (n + 1) s = crawl C mp n { s with url_queue := rest } := by
            simp [crawl, hq, hb, hv]
          rw [h1, h2, ih]
        · have h1 : crawl C mp (n + 1 + b) s =
              crawl C mp (n + b) (process_url C u { s with url_queue := rest }) := by
            have harith : n + 1 + b = (n + b) + 1 := by omega
            rw [harith]
            simp [crawl, hq, hb, hv]
          have h2 : crawl C mp (n + 1) s =
              crawl C mp n (process_url C u { s with url_queue := rest }) := by
            simp [crawl, hq, hb, hv]
          rw [h1, h2, ih]
      · have hbf : budget_ok mp s.page_count = false := by
          cases hbv : budget_ok mp s.page_count
          · rfl
          · exact absurd hbv hb
        rw [crawl_budget_stop C mp _ s hbf, crawl_budget_stop C mp _ s hbf,
          crawl_budget_stop C mp _ s hbf]

/-- A stabilized crawl (one more unit of fuel changes nothing) stopped either
because the queue is empty or because the budget is exhausted — the only two
exits of the Python `while` loop. -/
theorem crawl_stable_stop (C : Crawler) (mp : Option Nat) (fuel : Nat) (s : CrawlState)
    (hstab : crawl C mp (fuel + 1) s = crawl C mp fuel s) :
    (crawl C mp fuel s).url_queue = [] ∨
      budget_ok mp (crawl C mp fuel s).page_count = false := by
  have hone : crawl C mp 1 (crawl C mp fuel s) = crawl C mp fuel s := by
    rw [← crawl_add C mp fuel 1 s]
    exact hstab
  by_contra hcon
  push_neg at hcon
  obtain ⟨hq, hb⟩ := hcon
  rcases hqe : (crawl C mp fuel s).url_queue with _ | ⟨u, rest⟩
  · exact hq hqe
  · have hb' : budget_ok mp (crawl C mp fuel s).page_count = true := by
      cases hbv : budget_ok mp (crawl C mp fuel s).page_count
      · exact absurd hbv hb
      · rfl
    by_cases hv : u ∈ (crawl C mp fuel s).visited_urls
    · have hstep : crawl C mp 1 (crawl C mp fuel s) =
          { crawl C mp fuel s with url_queue := rest } := by
        simp [crawl, hqe, hb', hv]
      rw [hstep] at hone
      have hlen := congrArg (fun t => t.url_queue.length) hone
      simp only [hqe] at hlen
      simp at hlen
    · have hstep : crawl C mp 1 (crawl C mp fuel s) =
          process_url C u { crawl C mp fuel s with url_queue := rest } := by
        simp [crawl, hqe, hb', hv]
      rw [hstep] at hone
      have hcount := congrArg CrawlState.page_count hone
      rw [process_url_page_count] at hcount
      simp at hcount

/-- The function `process_url` only ever appends to the queue. -/
theorem process_url_queue_append (C : Crawler) (u : String) (s : CrawlState) :
    ∃ tail, (process_url C u s).url_queue = s.url_queue ++ tail := by
  unfold process_url
  cases hdl : download_file C u (file_type_of u) with
  | error e => exact ⟨[], by simp [hdl]⟩
  | ok pr =>
    obtain ⟨fp, c⟩ := pr
    by_cases h : (file_type_of u == "html") = true
    · refine ⟨((extract_links C u c).filter
        (fun l => decide (l.1 ∉ s.visited_urls ++ [u]))).map Prod.fst, ?_⟩
      simp [hdl, h]
    · exact ⟨[], by simp [hdl, h]⟩

/-- When the list `s` starts with `p :: ps`, it is `p` followed by a list
starting with `ps`. -/
theorem startsWithL_eq_cons (s : List Char) (p : Char) (ps : List Char)
    (h : startsWithL s (p :: ps) = true) :
    ∃ t, s = p :: t ∧ startsWithL t ps = true := by
  cases s with
  | nil => simp [startsWithL] at h
  | cons c t =>
    simp only [startsWithL, Bool.and_eq_true, beq_iff_eq] at h
    exact ⟨t, by rw [h.1], h.2⟩

/-! ## The claims -/

/-- Claim C1: for any sequence of enqueue operations on the same normalized
URL during `crawl()`, the visited set records that URL at most once and a
fetch collaborator is invoked for it at most once; insertion into the visited
set happens at dequeue time (even a failing fetch leaves the URL visited),
and a dequeued URL that is already visited is discarded without fetching,
changing nothing but the queue. -/
theorem claim_C1_dedup (C : Crawler) (mp : Option Nat) (fuel : Nat) (base u : String) :
    ((crawl C mp fuel (initState base)).visited_urls.count u ≤ 1) ∧
    ((fetchedUrls (crawl C mp fuel (initState base))).count u ≤ 1) ∧
    (∀ s rest, s.url_queue = u :: rest → u ∈ s.visited_urls →
      budget_ok mp s.page_count = true →
      crawl C mp 1 s = { s with url_queue := rest }) ∧
    (∀ s rest, s.url_queue = u :: rest → u ∉ s.visited_urls →
      budget_ok mp s.page_count = true →
      u ∈ (crawl C mp 1 s).visited_urls) := by
  have hinv : DedupInv (crawl C mp fuel (initState base)) :=
    dedupInv_crawl C mp fuel _
      ⟨by simp [initState], by simp [fetchedUrls, initState], by simp [fetchedUrls, initState]⟩
  refine ⟨List.nodup_iff_count_le_one.1 hinv.1 u,
          List.nodup_iff_count_le_one.1 hinv.2.1 u, ?_, ?_⟩
  · intro s rest hq hv hb
    simp [crawl, hq, hv, hb]
  · intro s rest hq hv hb
    simp [crawl, hq, hv, hb, process_url_visited_urls]

theorem claim_C1_dedup_witness :
    ((crawl fifoCrawler none 10 (initState "http://x/a")).visited_urls.count "http://x/b" ≤ 1) ∧
    crawl fifoCrawler none 1
        { url_queue := ["http://x/b"], visited_urls := ["http://x/b"], page_count := 0,
          fetchCalls := [], savedFiles := [], errors := [] } =
      { url_queue := [], visited_urls := ["http://x/b"], page_count := 0,
        fetchCalls := [], savedFiles := [], errors := [] } :=
  ⟨(claim_C1_dedup fifoCrawler none 10 "http://x/a" "http://x/b").1,
   (claim_C1_dedup fifoCrawler none 10 "http://x/a" "http://x/b").2.2.1
     { url_queue := ["http://x/b"], visited_urls := ["http://x/b"], page_count := 0,
       fetchCalls := [], savedFiles := [], errors := [] }
     [] rfl (by decide) rfl⟩

/-- Claim C2: with the domain scope initialised to the netloc of the seed URL
(as in `__init__`), every URL ever passed to a fetch collaborator during
`crawl()` has that domain as its netloc. -/
theorem claim_C2_scope (C : Crawler) (mp : Option Nat) (fuel : Nat) (base : String)
    (hbase : urlnetloc base = C.domain) :
    ∀ p ∈ (crawl C mp fuel (initState base)).fetchCalls, urlnetloc p.1 = C.domain := by
  intro p hp
  have hinit : ScopeInv C (initState base) := by
    constructor
    · intro v hv
      simp only [initState, List.mem_singleton] at hv
      rw [hv]
      exact hbase
    · intro v hv
      simp [fetchedUrls, initState] at hv
  have hinv : ScopeInv C (crawl C mp fuel (initState base)) :=
    scopeInv_crawl C mp fuel _ hinit
  exact hinv.2 p.1 (List.mem_map_of_mem Prod.fst hp)

theorem claim_C2_scope_witness :
    urlnetloc "http://x/d" = fifoCrawler.domain :=
  claim_C2_scope fifoCrawler none 10 "http://x/a" (by decide)
    ("http://x/d", "html") (by decide)

/-- Claim C6: in single-worker mode the queue is processed in strict FIFO
(breadth-first) order: each iteration removes the FRONT entry and only ever
appends discovered links at the BACK, and in the concrete scenario — seed
`http://x/a` linking to `http://x/b` then `http://x/c` in document order, and
`http://x/b` linking to `http://x/d` — the fetch order is exactly a, b, c, d
(breadth-first, not depth-first), draining the queue. -/
theorem claim_C6_fifo (C : Crawler) (mp : Option Nat) (s : CrawlState)
    (u : String) (rest : List String)
    (hq : s.url_queue = u :: rest) (hb : budget_ok mp s.page_count = true) :
    (∃ tail, (crawl C mp 1 s).url_queue = rest ++ tail) ∧
    fetchedUrls (crawl fifoCrawler none 10 (initState "http://x/a")) =
      ["http://x/a", "http://x/b", "http://x/c", "http://x/d"] ∧
    (crawl fifoCrawler none 10 (initState "http://x/a")).url_queue = [] := by
  refine ⟨?_, by decide, by decide⟩
  by_cases hv : u ∈ s.visited_urls
  · refine ⟨[], ?_⟩
    simp [crawl, hq, hb, hv]
  · have hone : crawl C mp 1 s = process_url C u { s with url_queue := rest } := by
      simp [crawl, hq, hb, hv]
    obtain ⟨tail, htail⟩ := process_url_queue_append C u { s with url_queue := rest }
    exact ⟨tail, by rw [hone, htail]⟩

theorem claim_C6_fifo_witness :
    ∃ tail, (crawl fifoCrawler none 1 (initState "http://x/a")).url_queue = [] ++ tail :=
  (claim_C6_fifo fifoCrawler none (initState "http://x/a") "http://x/a" [] rfl rfl).1

/-- Claim C7: with a budget `n` the crawl never processes more than `n`
entries; a finished run (more fuel changes nothing) that leaves the queue
non-empty stopped exactly at the cap, `page_count = n`, regardless of the
remaining queue depth.  On the five-page star graph: budget 3 yields exactly
3 fetch attempts with a non-empty residual queue, while a budget of 10
processes all 5 reachable pages and empties the queue — exactly
`min` budget reachable on both sides. -/
theorem claim_C7_budget (C : Crawler) (n fuel : Nat) (s : CrawlState)
    (h : s.page_count ≤ n) :
    ((crawl C (some n) fuel s).page_count ≤ n) ∧
    (crawl C (some n) (fuel + 1) s = crawl C (some n) fuel s →
      (crawl C (some n) fuel s).url_queue ≠ [] →
      (crawl C (some n) fuel s).page_count = n) ∧
    ((crawl starCrawler (some 3) 10 (initState "http://x/a")).fetchCalls.length = 3 ∧
     (crawl starCrawler (some 3) 10 (initState "http://x/a")).url_queue =
       ["http://x/d", "http://x/e"]) ∧
    ((crawl starCrawler (some 10) 20 (initState "http://x/a")).fetchCalls.length = 5 ∧
     (crawl starCrawler (some 10) 20 (initState "http://x/a")).url_queue = []) := by
  refine ⟨crawl_page_count_le C n fuel s h, ?_, by decide, by decide⟩
  intro hstab hne
  rcases crawl_stable_stop C (some n) fuel s hstab with hq | hbf
  · exact absurd hq hne
  · have hge : n ≤ (crawl C (some n) fuel s).page_count := by
      simpa [budget_ok] using hbf
    exact Nat.le_antisymm (crawl_page_count_le C n fuel s h) hge

theorem claim_C7_budget_witness :
    (crawl starCrawler (some 3) 10 (initState "http://x/a")).page_count = 3 :=
  (claim_C7_budget starCrawler 3 10 (initState "http://x/a") (by decide)).2.1
    (by decide) (by decide)

/-- Claim C5: when `download_file` fails for a dequeued unvisited URL, the
crawler records `(url, reason)` in the accumulated error log (the
`logger.error` record of `download_file`'s except branch) and continues: the
rest of the queue is untouched and the loop proceeds.  In the concrete
scenario where fetching `http://x/b` fails, `http://x/c` and its descendant
`http://x/d` are still processed and `(b, boom)` is the only error. -/
theorem claim_C5_error_isolation (C : Crawler) (mp : Option Nat) (s : CrawlState)
    (u r : String) (rest : List String)
    (hq : s.url_queue = u :: rest) (hv : u ∉ s.visited_urls)
    (hb : budget_ok mp s.page_count = true)
    (hdl : download_file C u (file_type_of u) = Except.error r) :
    (crawl C mp 1 s =
      { s with url_queue := rest,
               visited_urls := s.visited_urls ++ [u],
               fetchCalls := s.fetchCalls ++ [(u, file_type_of u)],
               errors := s.errors ++ [(u, r)],
               page_count := s.page_count + 1 }) ∧
    ((crawl failBCrawler none 10 (initState "http://x/a")).errors =
      [("http://x/b", "boom")] ∧
     fetchedUrls (crawl failBCrawler none 10 (initState "http://x/a")) =
      ["http://x/a", "http://x/b", "http://x/c", "http://x/d"]) := by
  constructor
  · simp [crawl, hq, hv, hb, process_url, hdl]
  · exact ⟨by decide, by decide⟩

theorem claim_C5_error_isolation_witness :
    crawl failBCrawler none 1
        { url_queue := ["http://x/b"], visited_urls := [], page_count := 0,
          fetchCalls := [], savedFiles := [], errors := [] } =
      { url_queue := [], visited_urls := ["http://x/b"], page_count := 1,
        fetchCalls := [("http://x/b", "html")], savedFiles := [],
        errors := [("http://x/b", "boom")] } :=
  (claim_C5_error_isolation failBCrawler none
      { url_queue := ["http://x/b"], visited_urls := [], page_count := 0,
        fetchCalls := [], savedFiles := [], errors := [] }
      "http://x/b" "boom" [] rfl (by decide) rfl rfl).1

/-- Claim C8: a declared content type matching the MIME table takes
precedence over the URL extension: an `image/` prefix yields images, a
`video/` prefix yields videos, and the office/PDF list yields documents,
whatever the URL; in particular a declared `image/png` beats a `.csv`
extension. -/
theorem claim_C8_precedence (url ct : String) :
    (startsWithL ct.data "image/".data = true → get_media_type url (some ct) = "images") ∧
    (startsWithL ct.data "video/".data = true → get_media_type url (some ct) = "videos") ∧
    (ct ∈ documentMimeTypes → get_media_type url (some ct) = "documents") ∧
    get_media_type "https://x/y.csv" (some "image/png") = "images" := by
  refine ⟨?_, ?_, ?_, by decide⟩
  · intro h
    have hne : ¬ ct = "" := by rintro rfl; exact absurd h (by decide)
    simp only [get_media_type]
    rw [if_neg hne, if_pos h]
  · intro h
    have hne : ¬ ct = "" := by rintro rfl; exact absurd h (by decide)
    have h' : startsWithL ct.data ('v' :: ['i', 'd', 'e', 'o', '/']) = true := h
    obtain ⟨t, ht, -⟩ := startsWithL_eq_cons ct.data 'v' ['i', 'd', 'e', 'o', '/'] h'
    have himg : ¬ (startsWithL ct.data "image/".data = true) := by
      intro hcon
      have hcon' : startsWithL ct.data ('i' :: ['m', 'a', 'g', 'e', '/']) = true := hcon
      obtain ⟨t2, ht2, -⟩ := startsWithL_eq_cons ct.data 'i' ['m', 'a', 'g', 'e', '/'] hcon'
      rw [ht] at ht2
      injection ht2 with h1 h2
      exact absurd h1 (by decide)
    simp only [get_media_type]
    rw [if_neg hne, if_neg himg, if_pos h]
  · intro hmem
    simp only [documentMimeTypes, List.mem_cons, List.not_mem_nil, or_false] at hmem
    rcases hmem with rfl | rfl | rfl | rfl | rfl | rfl | rfl <;> rfl

theorem claim_C8_precedence_witness :
    get_media_type "https://x/y.csv" (some "image/png") = "images" ∧
    get_media_type "https://x/z.csv" (some "application/pdf") = "documents" :=
  ⟨(claim_C8_precedence "https://x/y.csv" "image/png").1 (by decide),
   (claim_C8_precedence "https://x/z.csv" "application/pdf").2.2.1 (by decide)⟩

/-- Claim C10: the fetch method and storage subdirectory of a dequeued URL
are decided solely by the suffix of the full URL string: every recorded
fetch call used `file_type_of`, a successful download is stored under
`output_dir/file_type/...`, and `file_type_of` sends `.js` to js, `.css` to
css and everything else — including `.js?v=2` — to html.  The kind assigned
at discovery is discarded at enqueue: the queue stores bare URL strings. -/
theorem claim_C10_suffix_dispatch (C : Crawler) (mp : Option Nat) (fuel : Nat)
    (base : String) :
    (∀ p ∈ (crawl C mp fuel (initState base)).fetchCalls, p.2 = file_type_of p.1) ∧
    (∀ u ft fp c, download_file C u ft = Except.ok (fp, c) →
      fp = C.output_dir ++ "/" ++ ft ++ "/" ++ url_to_filename u) ∧
    (file_type_of "http://x/lib.js" = "js" ∧
     file_type_of "http://x/style.css" = "css" ∧
     file_type_of "http://x/page" = "html" ∧
     file_type_of "http://x/lib.js?v=2" = "html") := by
  refine ⟨?_, ?_, by decide, by decide, by decide, by decide⟩
  · exact ftInv_crawl C mp fuel _ (by simp [FtInv, initState])
  · intro u ft fp c hok
    by_cases hft : (ft == "html") = true
    · simp only [download_file, hft, if_true] at hok
      cases hr : C.render u with
      | error e => rw [hr] at hok; cases hok
      | ok content =>
        rw [hr] at hok
        simp only [Except.ok.injEq, Prod.mk.injEq] at hok
        exact hok.1.symm
    · simp only [download_file, hft, Bool.false_eq_true, if_false] at hok
      cases hr : C.requests_get u with
      | error e => rw [hr] at hok; cases hok
      | ok content =>
        rw [hr] at hok
        simp only [Except.ok.injEq, Prod.mk.injEq] at hok
        exact hok.1.symm

theorem claim_C10_suffix_dispatch_witness :
    "html" = file_type_of "http://x/a" ∧
    "out/html/a.html" = fifoCrawler.output_dir ++ "/" ++ "html" ++ "/" ++ url_to_filename "http://x/a" :=
  ⟨(claim_C10_suffix_dispatch fifoCrawler none 10 "http://x/a").1
     ("http://x/a", "html") (by decide),
   (claim_C10_suffix_dispatch fifoCrawler none 10 "http://x/a").2.1
     "http://x/a" "html" "out/html/a.html" "PAGE http://x/a" rfl⟩

/-- Claim C3, counterexample: enqueue insertion is NOT idempotent against the
queue.  When the seed page links to `http://x/b` twice, after one iteration
the queue holds `http://x/b` twice — the code checks discovered links only
against the visited set, never against the queue. -/
theorem claim_C3_counterexample :
    (crawl dupLinkCrawler none 1 (initState "http://x/a")).url_queue =
      ["http://x/b", "http://x/b"] ∧
    (crawl dupLinkCrawler none 1 (initState "http://x/a")).url_queue.count "http://x/b" = 2 := by
  decide

/-- Claim C3, amended: a discovered link whose URL is already in the visited
set (which by then includes the page being processed) is never enqueued, but
there is no check against the queue, so the same URL can occur in the queue
more than once; the dequeue-time visited check still keeps fetches unique —
in the duplicate-link scenario `http://x/b` sits twice in the queue yet is
fetched exactly once. -/
theorem claim_C3_amended (C : Crawler) (mp : Option Nat) (s : CrawlState)
    (u : String) (rest : List String)
    (hq : s.url_queue = u :: rest) (hv : u ∉ s.visited_urls)
    (hb : budget_ok mp s.page_count = true) :
    (∀ v ∈ (crawl C mp 1 s).url_queue, v ∈ rest ∨ (v ∉ s.visited_urls ∧ v ≠ u)) ∧
    ((crawl dupLinkCrawler none 10 (initState "http://x/a")).url_queue.count "http://x/b" = 0 ∧
     fetchedUrls (crawl dupLinkCrawler none 10 (initState "http://x/a")) =
       ["http://x/a", "http://x/b"]) := by
  constructor
  · intro v hvm
    have hone : crawl C mp 1 s = process_url C u { s with url_queue := rest } := by
      simp [crawl, hq, hv, hb]
    rw [hone] at hvm
    rcases process_url_queue_mem C u { s with url_queue := rest } v hvm with hm | ⟨-, hm1, hm2⟩
    · exact Or.inl hm
    · exact Or.inr ⟨hm1, hm2⟩
  · exact ⟨by decide, by decide⟩

theorem claim_C3_amended_witness :
    "http://x/b" ∈ ([] : List String) ∨
      ("http://x/b" ∉ (initState "http://x/a").visited_urls ∧
        "http://x/b" ≠ "http://x/a") :=
  (claim_C3_amended dupLinkCrawler none (initState "http://x/a") "http://x/a" []
      rfl (by decide) rfl).1 "http://x/b" (by decide)

/-- Claim C4, counterexample: `url_to_filename` does NOT replace `?`, `&`,
`=` with `_` — it drops the query entirely.  On `https://x/c?d=1&e=2` the
result is `c.html`, not the query-bearing variant `c_d_1_e_2(.html)`, and no
underscore appears at all. -/
theorem claim_C4_counterexample :
    url_to_filename "https://x/c?d=1&e=2" = "c.html" ∧
    url_to_filename "https://x/c?d=1&e=2" ≠ "c_d_1_e_2.html" ∧
    url_to_filename "https://x/c?d=1&e=2" ≠ "c_d_1_e_2" ∧
    (url_to_filename "https://x/c?d=1&e=2").data.elem '_' = false := by
  decide

/-- Claim C4, amended: `url_to_filename` depends only on `urlparse(url).path`
— query and fragment are discarded, so `?`, `&`, `=` never reach the
filename; an empty or `/` path maps to `index.html`, path separators become
`_`, and `.html` is appended when no `.` is present: the three reference
URLs map to `index.html`, `a_b.html` and `c.html`. -/
theorem claim_C4_amended :
    (∀ u v : String, urlpath u = urlpath v → url_to_filename u = url_to_filename v) ∧
    url_to_filename "https://x/" = "index.html" ∧
    url_to_filename "https://x/a/b" = "a_b.html" ∧
    url_to_filename "https://x/c?d=1&e=2" = "c.html" ∧
    url_to_filename "https://x/c" = "c.html" := by
  refine ⟨fun u v h => ?_, by decide, by decide, by decide, by decide⟩
  simp only [url_to_filename, h]

theorem claim_C4_amended_witness :
    url_to_filename "https://x/c?d=1&e=2" = url_to_filename "https://x/c#frag" :=
  claim_C4_amended.1 "https://x/c?d=1&e=2" "https://x/c#frag" (by decide)

/-- Claim C9, counterexample: two URLs with the same normalized form
(fragment stripped) are NOT the same frontier entry.  When the visited page
`http://x/a` links to `http://x/a#sec`, the fragment variant is enqueued and
fetched a second time although both normalize to `http://x/a`. -/
theorem claim_C9_counterexample :
    fetchedUrls (crawl fragmentCrawler none 10 (initState "http://x/a")) =
      ["http://x/a", "http://x/a#sec"] ∧
    spec_normalized_form "http://x/a#sec" = spec_normalized_form "http://x/a" := by
  decide

/-- Claim C9, amended: frontier identity is exact string equality of the
resolved URL — the fragment is not stripped.  A link equal to a visited URL
as a string is never fetched again (the self-link scenario fetches once),
but a link differing from a visited URL only by its fragment is a distinct
frontier entry and is fetched again, despite sharing the spec's normalized
form. -/
theorem claim_C9_amended :
    (fetchedUrls (crawl selfLinkCrawler none 10 (initState "http://x/a")) = ["http://x/a"]) ∧
    ((crawl fragmentCrawler none 10 (initState "http://x/a")).visited_urls =
      ["http://x/a", "http://x/a#sec"]) ∧
    spec_normalized_form "http://x/a#sec" = spec_normalized_form "http://x/a" ∧
    "http://x/a#sec" ≠ "http://x/a" := by
  decide

end EDData
